import Mathlib

/-!
# Verification of the browser-based WebP conversion tool

A shallow embedding of the client-side state and operations of the
image-to-WebP converter:

* `File`, `ImageFile` — the upload handle and the per-image view-model record
  (`src/app/page.tsx`, interface `ImageFile`).
* `processFiles` — the synchronous upload gate of `ImageUploader`
  (`src/components/image-uploader.tsx`).
* `handleFilesAdded`, `updateImageState`, `processImage`,
  `handleRecompressAll` — the page-level operations on the `images` list
  (`src/app/page.tsx`).
* `formatBytes`, `compressionPercentage` and the download-name computation of
  `ImageConversionCard` (`src/components/image-conversion-card.tsx`).
* `downloadAllAsZip`, `canDownloadAll` — the batch-download variant of the
  page component.

Browser effects (object URLs, canvas encoding, dimension probing, toasts) are
modelled by their observable results: the asynchronous probe/encode pair is a
`ConversionOutcome` parameter, and fresh object URLs and UUIDs are supplied by
function parameters.  JavaScript floating-point arithmetic in the statistics
helpers is idealised as exact rational arithmetic, with `toFixed(d)` modelled
as rounding half-up to `d` decimal places and
`Math.floor(Math.log b / Math.log 1024)` as `Nat.log 1024 b`.
-/

namespace Webp

/-- A browser `File`: the fields the application reads (`name`, `type`,
`size`). -/
structure File where
  name : String
  type : String
  size : Nat
deriving DecidableEq, Repr

/-- Pixel dimensions as probed by `getImageDimensions`. -/
structure Dimensions where
  width : Nat
  height : Nat
deriving DecidableEq, Repr

/-- The `ImageFile` view-model record of `src/app/page.tsx`.  Optional
(`?`-marked) TypeScript fields become `Option`s; `status` is the string from
the union `'pending' | 'converting' | 'done' | 'error'`. -/
structure ImageFile where
  id : String
  file : File
  originalUrl : String
  convertedUrl : Option String := none
  originalSize : Nat
  convertedSize : Option Nat := none
  status : String
  error : Option String := none
  dimensions : Option Dimensions := none
deriving DecidableEq, Repr

/-- A `Partial<ImageFile>` update object.  The outer `Option` records whether
the key is present in the object literal; for TypeScript-optional fields the
inner `Option` is the (possibly `undefined`) value written. -/
structure ImageUpdate where
  id : Option String := none
  file : Option File := none
  originalUrl : Option String := none
  convertedUrl : Option (Option String) := none
  originalSize : Option Nat := none
  convertedSize : Option (Option Nat) := none
  status : Option String := none
  error : Option (Option String) := none
  dimensions : Option (Option Dimensions) := none
deriving DecidableEq, Repr

/-- The spread `{ ...img, ...updates }`: every key present in `updates`
overwrites the corresponding field of `img`. -/
def applyUpdate (img : ImageFile) (u : ImageUpdate) : ImageFile where
  id := u.id.getD img.id
  file := u.file.getD img.file
  originalUrl := u.originalUrl.getD img.originalUrl
  convertedUrl := u.convertedUrl.getD img.convertedUrl
  originalSize := u.originalSize.getD img.originalSize
  convertedSize := u.convertedSize.getD img.convertedSize
  status := u.status.getD img.status
  error := u.error.getD img.error
  dimensions := u.dimensions.getD img.dimensions

/-- `updateImageState` of `src/app/page.tsx`:
`prev.map(img => img.id === id ? { ...img, ...updates } : img)`. -/
def updateImageState (id : String) (updates : ImageUpdate)
    (prev : List ImageFile) : List ImageFile :=
  prev.map fun img => if img.id = id then applyUpdate img updates else img

/-! ## The upload gate (`src/components/image-uploader.tsx`) -/

def MAX_FILES : Nat := 50

def MAX_FILE_SIZE_MB : Nat := 100

def ACCEPTED_IMAGE_TYPES : List String :=
  ["image/jpeg", "image/png", "image/gif", "image/webp", "image/avif",
   "image/svg+xml"]

/-- The predicate of the `files.filter` in `processFiles`: a file is dropped
when its MIME type is not accepted, or when it is larger than
`MAX_FILE_SIZE_MB` megabytes. -/
def validFilePred (file : File) : Bool :=
  if !(ACCEPTED_IMAGE_TYPES.contains file.type) then false
  else if MAX_FILE_SIZE_MB * 1024 * 1024 < file.size then false
  else true

/-- `processFiles` of `ImageUploader`.  `some l` means `onFilesAdded l` is
invoked; `none` means the callback is not invoked (over-large batch, or no
valid file). -/
def processFiles (files : List File) : Option (List File) :=
  if MAX_FILES < files.length then none
  else
    let validFiles := files.filter validFilePred
    if 0 < validFiles.length then some validFiles else none

/-! ## Page-level operations (`src/app/page.tsx`) -/

/-- JavaScript `s.startsWith(pre)`: the characters of `pre` are an initial
segment of the characters of `s`. -/
def strStartsWith (s pre : String) : Bool := pre.data.isPrefixOf s.data

/-- `handleFilesAdded`: keep files whose type starts with `image/`, build a
fresh `pending` record for each, and append them to the list.  `newId` and
`newUrl` supply `crypto.randomUUID()` and `URL.createObjectURL(file)`. -/
def handleFilesAdded (newId newUrl : File → String) (files : List File)
    (prev : List ImageFile) : List ImageFile :=
  let newImageFiles : List ImageFile :=
    (files.filter fun file => strStartsWith file.type "image/").map fun file =>
      { id := newId file
        file := file
        originalUrl := newUrl file
        originalSize := file.size
        status := "pending" }
  prev ++ newImageFiles

/-- The composite upload path: `processFiles` feeding `onFilesAdded =
handleFilesAdded`.  When the callback is not invoked the state is
unchanged. -/
def uploadFlow (newId newUrl : File → String) (files : List File)
    (prev : List ImageFile) : List ImageFile :=
  match processFiles files with
  | none => prev
  | some validFiles => handleFilesAdded newId newUrl validFiles prev

/-- The result of the two awaited browser calls inside `processImage`:
either both succeed (`ok`), `getImageDimensions` rejects (`dimsError`),
or `convertToWebp` rejects after the dimensions were stored
(`convertError`).  `url` and `size` are `URL.createObjectURL(convertedBlob)`
and `convertedBlob.size`. -/
inductive ConversionOutcome where
  | ok (dims : Dimensions) (url : String) (size : Nat)
  | dimsError (msg : String)
  | convertError (dims : Dimensions) (msg : String)
deriving DecidableEq, Repr

/-- First write of `processImage`: `{ status: 'converting' }`. -/
def setConverting (id : String) (s : List ImageFile) : List ImageFile :=
  updateImageState id { status := some "converting" } s

/-- Second write of `processImage`: `{ dimensions }`. -/
def setDimensions (id : String) (dims : Dimensions) (s : List ImageFile) :
    List ImageFile :=
  updateImageState id { dimensions := some (some dims) } s

/-- Success write of `processImage`:
`{ convertedUrl, convertedSize, status: 'done' }`. -/
def setDone (id : String) (url : String) (size : Nat) (s : List ImageFile) :
    List ImageFile :=
  updateImageState id
    { convertedUrl := some (some url)
      convertedSize := some (some size)
      status := some "done" } s

/-- Catch-clause write of `processImage`:
`{ status: 'error', error: errorMessage }`. -/
def setFailed (id : String) (msg : String) (s : List ImageFile) :
    List ImageFile :=
  updateImageState id { status := some "error", error := some (some msg) } s

/-- The successive states the `images` list passes through during one run of
`processImage`, in execution order. -/
def processImageTrace (imageFile : ImageFile) (outcome : ConversionOutcome)
    (s : List ImageFile) : List (List ImageFile) :=
  let s1 := setConverting imageFile.id s
  match outcome with
  | .ok dims url size =>
      let s2 := setDimensions imageFile.id dims s1
      [s1, s2, setDone imageFile.id url size s2]
  | .dimsError msg => [s1, setFailed imageFile.id msg s1]
  | .convertError dims msg =>
      let s2 := setDimensions imageFile.id dims s1
      [s1, s2, setFailed imageFile.id msg s2]

/-- The final state after one run of `processImage`. -/
def processImage (imageFile : ImageFile) (outcome : ConversionOutcome)
    (s : List ImageFile) : List ImageFile :=
  match outcome with
  | .ok dims url size =>
      setDone imageFile.id url size
        (setDimensions imageFile.id dims (setConverting imageFile.id s))
  | .dimsError msg => setFailed imageFile.id msg (setConverting imageFile.id s)
  | .convertError dims msg =>
      setFailed imageFile.id msg
        (setDimensions imageFile.id dims (setConverting imageFile.id s))

/-- `handleRecompressAll`: every `done` or `error` record is reset to
`pending` with its conversion results cleared; other records are kept. -/
def handleRecompressAll (prev : List ImageFile) : List ImageFile :=
  prev.map fun image =>
    if image.status = "done" || image.status = "error" then
      { image with
        status := "pending"
        convertedUrl := none
        convertedSize := none
        error := none }
    else image

/-- The records the processing effect selects:
`images.filter(image => image.status === 'pending')`. -/
def pendingImages (images : List ImageFile) : List ImageFile :=
  images.filter fun image => image.status = "pending"

/-! ## The application transition relation

One constructor per way the `images` state is written: an upload round, any
intermediate state of one `processImage` run on a `pending` record (the
effect in `page.tsx` only invokes `processImage` on records whose status is
`'pending'`), and `handleRecompressAll`. -/

inductive AppStep : List ImageFile → List ImageFile → Prop where
  | upload {s : List ImageFile} (newId newUrl : File → String)
      (files : List File) : AppStep s (uploadFlow newId newUrl files s)
  | process {s : List ImageFile} (imageFile : ImageFile)
      (outcome : ConversionOutcome) (hmem : imageFile ∈ s)
      (hp : imageFile.status = "pending") {t : List ImageFile}
      (ht : t ∈ processImageTrace imageFile outcome s) : AppStep s t
  | recompress {s : List ImageFile} : AppStep s (handleRecompressAll s)

/-- A state the application can be in, starting from the empty list. -/
def Reachable (s : List ImageFile) : Prop :=
  Relation.ReflTransGen AppStep [] s

/-- Object-URL UUIDs identify records: two records of the list with the same
`id` are the same record. -/
def IdsIdentify (s : List ImageFile) : Prop :=
  ∀ r1 ∈ s, ∀ r2 ∈ s, r1.id = r2.id → r1 = r2

/-! ## The results card (`src/components/image-conversion-card.tsx`)

`toFixed(d)` followed by `Number`/`parseFloat` is modelled as exact
half-up rounding to `d` decimal places. -/

/-- Rounding half-up to one decimal place (`x.toFixed(1)` read back as a
number). -/
def round1 (q : ℚ) : ℚ := ((⌊q * 10 + 1 / 2⌋ : ℤ) : ℚ) / 10

/-- Rounding half-up to two decimal places (`x.toFixed(2)` read back as a
number). -/
def round2 (q : ℚ) : ℚ := ((⌊q * 100 + 1 / 2⌋ : ℤ) : ℚ) / 100

/-- `compressionPercentage`: when both sizes are truthy (non-zero), the
percentage `((originalSize - convertedSize) / originalSize) * 100` rounded to
one decimal; otherwise the number `0`. -/
def compressionPercentage (originalSize : Nat) (convertedSize : Option Nat) :
    ℚ :=
  match convertedSize with
  | some c =>
      if originalSize = 0 ∨ c = 0 then 0
      else round1 ((((originalSize : ℚ) - (c : ℚ)) / (originalSize : ℚ)) * 100)
  | none => 0

/-- `isOptimizedSmaller`: `convertedSize ? convertedSize < originalSize :
false`. -/
def isOptimizedSmaller (originalSize : Nat) (convertedSize : Option Nat) :
    Bool :=
  match convertedSize with
  | some c => if c = 0 then false else decide (c < originalSize)
  | none => false

/-- The badge rendered next to the converted size: the sign character and
`Math.abs(Number(compressionPercentage))`. -/
def compressionBadge (originalSize : Nat) (convertedSize : Option Nat) :
    String × ℚ :=
  (if isOptimizedSmaller originalSize convertedSize then "-" else "+",
   |compressionPercentage originalSize convertedSize|)

/-- The `sizes` array of `formatBytes`. -/
def sizeUnits : List String := ["Bytes", "KB", "MB", "GB", "TB"]

/-- `Math.floor(Math.log(bytes) / Math.log(1024))`, idealised over exact
reals: the floor of the base-1024 logarithm. -/
def byteExponent (bytes : Nat) : Nat := Nat.log 1024 bytes

/-- The numeric part of `formatBytes`:
`parseFloat((bytes / Math.pow(1024, i)).toFixed(2))`. -/
def formatBytesValue (bytes : Nat) : ℚ :=
  round2 ((bytes : ℚ) / (1024 : ℚ) ^ byteExponent bytes)

/-- The unit part of `formatBytes`: `sizes[i]`, which is absent (JavaScript
`undefined`) when the exponent falls outside the array. -/
def formatBytesUnit (bytes : Nat) : Option String :=
  sizeUnits.get? (byteExponent bytes)

/-- `formatBytes` with default `decimals = 2`: `'0 Bytes'` for zero, else the
rounded value paired with the selected unit. -/
def formatBytes (bytes : Nat) : String ⊕ (ℚ × Option String) :=
  if bytes = 0 then Sum.inl "0 Bytes"
  else Sum.inr (formatBytesValue bytes, formatBytesUnit bytes)

/-! ## Download-file naming

`name.split('.')` is modelled by `splitDots` on the character list: it agrees
with the JavaScript single-character split (the result always has one more
segment than there are dots, and empty segments are kept). -/

/-- Split a character list at every `'.'`, keeping empty segments. -/
def splitDots : List Char → List (List Char)
  | [] => [[]]
  | c :: rest =>
      match splitDots rest with
      | [] => [[]]
      | seg :: segs =>
          if c = '.' then [] :: seg :: segs else (c :: seg) :: segs

/-- `name.split('.').slice(0, -1).join('.') + '_optimized.webp'`: the
download name used by `handleDownload` and by the ZIP entries. -/
def optimizedName (name : String) : String :=
  ⟨List.intercalate ['.'] (splitDots name.data).dropLast ++
    "_optimized.webp".data⟩

/-! ## Batch download (the `downloadAllAsZip` page variant) -/

/-- `images.filter(img => img.status === 'done' && img.convertedUrl)`. -/
def doneImages (images : List ImageFile) : List ImageFile :=
  images.filter fun img => img.status = "done" && img.convertedUrl.isSome

/-- `downloadAllAsZip`: `none` when there is no completed image (the early
return); otherwise the archive entries in order, each the pair of the entry
name and the object URL whose blob is stored under it. -/
def downloadAllAsZip (images : List ImageFile) :
    Option (List (String × Option String)) :=
  let d := doneImages images
  if d.length = 0 then none
  else some (d.map fun img => (optimizedName img.file.name, img.convertedUrl))

/-- `convertedCount`: the number of `done` records. -/
def convertedCount (images : List ImageFile) : Nat :=
  (images.filter fun img => img.status = "done").length

/-- `progress`: percentage of `done` records, `0` for an empty list. -/
def progress (images : List ImageFile) : ℚ :=
  if 0 < images.length then
    ((convertedCount images : ℚ) / (images.length : ℚ)) * 100
  else 0

/-- `canDownloadAll = convertedCount > 1 && progress === 100`. -/
def canDownloadAll (images : List ImageFile) : Bool :=
  decide (1 < convertedCount images) && decide (progress images = 100)

/-! ## Concrete sample inputs (used to instantiate the theorems) -/

def exFile : File := { name := "photo.png", type := "image/png", size := 2048 }

def exPending : ImageFile :=
  { id := "id-1", file := exFile, originalUrl := "blob:orig-1",
    originalSize := 2048, status := "pending" }

def exDone : ImageFile :=
  { id := "id-2", file := exFile, originalUrl := "blob:orig-2",
    convertedUrl := some "blob:conv-2", originalSize := 2048,
    convertedSize := some 1024, status := "done" }

def exDone2 : ImageFile :=
  { id := "id-3", file := exFile, originalUrl := "blob:orig-3",
    convertedUrl := some "blob:conv-3", originalSize := 2048,
    convertedSize := some 512, status := "done" }

def exDims : Dimensions := { width := 640, height := 480 }

/-- An oversize PNG: rejected by the 100 MiB cap. -/
def exBigFile : File :=
  { name := "big.png", type := "image/png", size := 200 * 1024 * 1024 }

/-- A pre-existing record that happens to carry the oversize file. -/
def exBigRecord : ImageFile :=
  { id := "id-8", file := exBigFile, originalUrl := "blob:8",
    originalSize := 200 * 1024 * 1024, status := "error" }

/-- The state after uploading `exFile` into the empty list. -/
def exState1 : List ImageFile :=
  uploadFlow (fun _ => "id-1") (fun _ => "blob:orig-1") [exFile] []

def exRecord1 : ImageFile :=
  { id := "id-1", file := exFile, originalUrl := "blob:orig-1",
    originalSize := 2048, status := "pending" }

/-! ## Helper lemmas -/

theorem updateImageState_getElem? (id : String) (u : ImageUpdate)
    (l : List ImageFile) (i : Nat) :
    (updateImageState id u l)[i]? =
      l[i]?.map fun r => if r.id = id then applyUpdate r u else r := by
  simp [updateImageState, List.getElem?_map]

theorem updateImageState_getElem?_ne {id : String} {u : ImageUpdate}
    {l : List ImageFile} {i : Nat} {r : ImageFile} (h : l[i]? = some r)
    (hne : r.id ≠ id) : (updateImageState id u l)[i]? = some r := by
  rw [updateImageState_getElem?, h]
  simp [hne]

theorem updateImageState_getElem?_eq {id : String} {u : ImageUpdate}
    {l : List ImageFile} {i : Nat} {r : ImageFile} (h : l[i]? = some r)
    (heq : r.id = id) : (updateImageState id u l)[i]? =
      some (applyUpdate r u) := by
  rw [updateImageState_getElem?, h]
  simp [heq]

theorem updateImageState_length (id : String) (u : ImageUpdate)
    (l : List ImageFile) : (updateImageState id u l).length = l.length := by
  simp [updateImageState]

theorem handleRecompressAll_getElem? (l : List ImageFile) (i : Nat) :
    (handleRecompressAll l)[i]? =
      l[i]?.map fun image =>
        if image.status = "done" || image.status = "error" then
          { image with
            status := "pending"
            convertedUrl := none
            convertedSize := none
            error := none }
        else image := by
  simp [handleRecompressAll, List.getElem?_map]

/-- The trace and the final state of `processImage` agree. -/
theorem processImageTrace_getLast? (imageFile : ImageFile)
    (outcome : ConversionOutcome) (s : List ImageFile) :
    (processImageTrace imageFile outcome s).getLast? =
      some (processImage imageFile outcome s) := by
  cases outcome <;> rfl

theorem splitDots_ne_nil (cs : List Char) : splitDots cs ≠ [] := by
  cases cs with
  | nil => simp [splitDots]
  | cons c rest =>
      simp only [splitDots]
      cases h : splitDots rest with
      | nil => simp
      | cons seg segs =>
          by_cases hc : c = '.' <;> simp [hc]

theorem splitDots_no_dot {cs : List Char} (h : '.' ∉ cs) :
    splitDots cs = [cs] := by
  induction cs with
  | nil => rfl
  | cons c rest ih =>
      have hc : ¬c = '.' := fun hc => h (hc ▸ List.mem_cons_self c rest)
      have hrest : '.' ∉ rest := fun hr => h (List.mem_cons_of_mem c hr)
      simp [splitDots, ih hrest, hc]

theorem splitDots_append_dot (a b : List Char) :
    splitDots (a ++ '.' :: b) = splitDots a ++ splitDots b := by
  induction a with
  | nil =>
      simp only [List.nil_append, splitDots]
      cases h : splitDots b with
      | nil => exact absurd h (splitDots_ne_nil b)
      | cons seg segs => simp
  | cons c a ih =>
      cases h : splitDots a with
      | nil => exact absurd h (splitDots_ne_nil a)
      | cons seg segs =>
          simp only [List.cons_append, splitDots, List.append_eq]
          rw [ih, h]
          simp only [List.cons_append]
          by_cases hc : c = '.' <;> simp [hc]

theorem intercalate_splitDots (cs : List Char) :
    List.intercalate ['.'] (splitDots cs) = cs := by
  induction cs with
  | nil => rfl
  | cons c rest ih =>
      simp only [splitDots]
      cases h : splitDots rest with
      | nil => exact absurd h (splitDots_ne_nil rest)
      | cons seg segs =>
          rw [h] at ih
          by_cases hc : c = '.'
          · subst hc
            simpa [List.intercalate, List.intersperse_cons_cons] using ih
          · simp only [if_neg hc]
            cases segs with
            | nil =>
                simp only [List.intercalate] at ih ⊢
                simpa using ih
            | cons seg2 segs2 =>
                simp only [List.intercalate, List.intersperse_cons_cons,
                  List.flatten_cons] at ih ⊢
                simpa using ih

/-- The statuses a record of the list may carry. -/
def statusLegal (s : List ImageFile) : Prop :=
  ∀ img ∈ s, img.status ∈ (["pending", "converting", "done", "error"] :
    List String)

theorem statusLegal_updateImageState {s : List ImageFile} {u : ImageUpdate}
    (id : String) (h : statusLegal s)
    (hu : ∀ st, u.status = some st →
      st ∈ (["pending", "converting", "done", "error"] : List String)) :
    statusLegal (updateImageState id u s) := by
  intro img hmem
  rcases List.mem_map.mp hmem with ⟨r, hr, hrest⟩
  by_cases hid : r.id = id
  · simp only [hid, if_pos rfl] at hrest
    subst hrest
    cases hst : u.status with
    | none => simpa [applyUpdate, hst] using h r hr
    | some st => simpa [applyUpdate, hst] using hu st hst
  · simp only [if_neg hid] at hrest
    subst hrest
    exact h r hr

theorem statusLegal_uploadFlow {s : List ImageFile}
    (newId newUrl : File → String) (files : List File)
    (h : statusLegal s) : statusLegal (uploadFlow newId newUrl files s) := by
  unfold uploadFlow
  cases processFiles files with
  | none => exact h
  | some validFiles =>
      intro img hmem
      rcases List.mem_append.mp hmem with hold | hnew
      · exact h img hold
      · rcases List.mem_map.mp hnew with ⟨f, _, hf⟩
        subst hf
        simp

theorem statusLegal_handleRecompressAll {s : List ImageFile}
    (h : statusLegal s) : statusLegal (handleRecompressAll s) := by
  intro img hmem
  rcases List.mem_map.mp hmem with ⟨r, hr, hrest⟩
  by_cases hd : r.status = "done" || r.status = "error"
  · simp only [if_pos hd] at hrest
    subst hrest
    simp
  · simp only [if_neg hd] at hrest
    subst hrest
    exact h r hr

theorem statusLegal_processImageTrace {s t : List ImageFile}
    {imageFile : ImageFile} {outcome : ConversionOutcome}
    (ht : t ∈ processImageTrace imageFile outcome s) (h : statusLegal s) :
    statusLegal t := by
  have h1 : statusLegal (setConverting imageFile.id s) := by
    refine statusLegal_updateImageState _ h ?_
    intro st hst
    simp only [Option.some.injEq] at hst
    simp [← hst]
  cases outcome with
  | ok dims url size =>
      have h2 : statusLegal (setDimensions imageFile.id dims
          (setConverting imageFile.id s)) := by
        refine statusLegal_updateImageState _ h1 ?_
        intro st hst
        simp at hst
      have h3 : statusLegal (setDone imageFile.id url size
          (setDimensions imageFile.id dims (setConverting imageFile.id s))) := by
        refine statusLegal_updateImageState _ h2 ?_
        intro st hst
        simp only [Option.some.injEq] at hst
        simp [← hst]
      simp only [processImageTrace, List.mem_cons, List.not_mem_nil, or_false] at ht
      rcases ht with rfl | rfl | rfl
      · exact h1
      · exact h2
      · exact h3
  | dimsError msg =>
      have h2 : statusLegal (setFailed imageFile.id msg
          (setConverting imageFile.id s)) := by
        refine statusLegal_updateImageState _ h1 ?_
        intro st hst
        simp only [Option.some.injEq] at hst
        simp [← hst]
      simp only [processImageTrace, List.mem_cons, List.not_mem_nil, or_false] at ht
      rcases ht with rfl | rfl
      · exact h1
      · exact h2
  | convertError dims msg =>
      have h2 : statusLegal (setDimensions imageFile.id dims
          (setConverting imageFile.id s)) := by
        refine statusLegal_updateImageState _ h1 ?_
        intro st hst
        simp at hst
      have h3 : statusLegal (setFailed imageFile.id msg
          (setDimensions imageFile.id dims (setConverting imageFile.id s))) := by
        refine statusLegal_updateImageState _ h2 ?_
        intro st hst
        simp only [Option.some.injEq] at hst
        simp [← hst]
      simp only [processImageTrace, List.mem_cons, List.not_mem_nil, or_false] at ht
      rcases ht with rfl | rfl | rfl
      · exact h1
      · exact h2
      · exact h3

theorem statusLegal_appStep {s t : List ImageFile} (hstep : AppStep s t)
    (h : statusLegal s) : statusLegal t := by
  cases hstep with
  | upload newId newUrl files => exact statusLegal_uploadFlow newId newUrl files h
  | process imageFile outcome hmem hp ht =>
      exact statusLegal_processImageTrace ht h
  | recompress => exact statusLegal_handleRecompressAll h

/-- A record whose id differs from the processed image is untouched by every
intermediate state of `processImage`. -/
theorem processImageTrace_getElem?_ne {imageFile : ImageFile}
    {outcome : ConversionOutcome} {s t : List ImageFile} {i : Nat}
    {r : ImageFile} (ht : t ∈ processImageTrace imageFile outcome s)
    (h : s[i]? = some r) (hne : r.id ≠ imageFile.id) : t[i]? = some r := by
  have h1 := updateImageState_getElem?_ne
    (u := { status := some "converting" }) h hne
  cases outcome with
  | ok dims url size =>
      simp only [processImageTrace, List.mem_cons, List.not_mem_nil,
        or_false] at ht
      have h2 := updateImageState_getElem?_ne
        (u := { dimensions := some (some dims) }) h1 hne
      rcases ht with rfl | rfl | rfl
      · exact h1
      · exact h2
      · exact updateImageState_getElem?_ne h2 hne
  | dimsError msg =>
      simp only [processImageTrace, List.mem_cons, List.not_mem_nil,
        or_false] at ht
      rcases ht with rfl | rfl
      · exact h1
      · exact updateImageState_getElem?_ne h1 hne
  | convertError dims msg =>
      simp only [processImageTrace, List.mem_cons, List.not_mem_nil,
        or_false] at ht
      have h2 := updateImageState_getElem?_ne
        (u := { dimensions := some (some dims) }) h1 hne
      rcases ht with rfl | rfl | rfl
      · exact h1
      · exact h2
      · exact updateImageState_getElem?_ne h2 hne

theorem mem_of_getElem?_some {l : List ImageFile} {i : Nat} {r : ImageFile}
    (h : l[i]? = some r) : r ∈ l := by
  rcases List.getElem?_eq_some.mp h with ⟨hlt, rfl⟩
  exact List.getElem_mem hlt

/-! ## Claim C9 — `updateImageState` is a frame-preserving point update -/

/-- C9: for every list of image records, every id and every partial update,
`updateImageState` returns a list of the same length and order in which every
record whose id matches equals the old record overwritten field-by-field with
the update, every record whose id differs is exactly the old record, and if
no record matches the id the list is returned unchanged. -/
theorem c9_update_frame (id : String) (u : ImageUpdate)
    (prev : List ImageFile) :
    (updateImageState id u prev).length = prev.length ∧
    (∀ (i : Nat) (r : ImageFile), prev[i]? = some r →
      (updateImageState id u prev)[i]? =
        some (if r.id = id then applyUpdate r u else r)) ∧
    ((∀ r ∈ prev, r.id ≠ id) → updateImageState id u prev = prev) ∧
    (∀ r : ImageFile,
      (applyUpdate r u).id = u.id.getD r.id ∧
      (applyUpdate r u).file = u.file.getD r.file ∧
      (applyUpdate r u).originalUrl = u.originalUrl.getD r.originalUrl ∧
      (applyUpdate r u).convertedUrl = u.convertedUrl.getD r.convertedUrl ∧
      (applyUpdate r u).originalSize = u.originalSize.getD r.originalSize ∧
      (applyUpdate r u).convertedSize = u.convertedSize.getD r.convertedSize ∧
      (applyUpdate r u).status = u.status.getD r.status ∧
      (applyUpdate r u).error = u.error.getD r.error ∧
      (applyUpdate r u).dimensions = u.dimensions.getD r.dimensions) := by
  refine ⟨updateImageState_length id u prev, ?_, ?_, ?_⟩
  · intro i r h
    rw [updateImageState_getElem?, h]
    rfl
  · intro h
    have hmap : updateImageState id u prev = prev.map fun r => r :=
      List.map_congr_left fun r hr => if_neg (h r hr)
    rw [hmap]
    simp
  · intro r
    exact ⟨rfl, rfl, rfl, rfl, rfl, rfl, rfl, rfl, rfl⟩

/-- Witness for C9: an update addressed to an id that no record carries
leaves a concrete list unchanged. -/
theorem c9_update_frame_witness :
    updateImageState "id-9" { status := some "done" } [exPending] =
      [exPending] :=
  (c9_update_frame "id-9" { status := some "done" } [exPending]).2.2.1
    (by decide)

/-! ## Claim C10 — the individual download filename -/

/-- C10: the download filename is the original name with its final
dot-separated segment dropped, joined by `'.'`, plus `_optimized.webp`; a
name of the shape `base.ext` (with a dot-free final segment) keeps `base`,
and a name containing no `'.'` loses the whole original name: the download is
named exactly `_optimized.webp`. -/
theorem c10_download_name (name : String) :
    optimizedName name =
      ⟨List.intercalate ['.'] (splitDots name.data).dropLast ++
        "_optimized.webp".data⟩ ∧
    ('.' ∉ name.data → optimizedName name = "_optimized.webp") ∧
    (∀ base ext : List Char, '.' ∉ ext → name.data = base ++ '.' :: ext →
      optimizedName name = ⟨base ++ "_optimized.webp".data⟩) := by
  refine ⟨rfl, ?_, ?_⟩
  · intro h
    show (⟨List.intercalate ['.'] (splitDots name.data).dropLast ++
      "_optimized.webp".data⟩ : String) = "_optimized.webp"
    rw [splitDots_no_dot h]
    rfl
  · intro base ext hext hsplit
    show (⟨List.intercalate ['.'] (splitDots name.data).dropLast ++
      "_optimized.webp".data⟩ : String) = ⟨base ++ "_optimized.webp".data⟩
    rw [hsplit, splitDots_append_dot, splitDots_no_dot hext,
      List.dropLast_concat, intercalate_splitDots]

/-- Witness for C10: a dotless name yields exactly `_optimized.webp`, and
`photo.png` yields `photo_optimized.webp`. -/
theorem c10_download_name_witness :
    optimizedName "photo" = "_optimized.webp" ∧
    optimizedName "photo.png" = "photo_optimized.webp" := by
  constructor
  · exact (c10_download_name "photo").2.1 (by decide)
  · rw [(c10_download_name "photo.png").2.2 "photo".data "png".data
      (by decide) (by decide)]
    rfl

/-! ## Claim C2 — the synchronous upload cap -/

/-- Inversion for a successful run of `processFiles`. -/
theorem processFiles_eq_some {files validFiles : List File}
    (h : processFiles files = some validFiles) :
    files.length ≤ MAX_FILES ∧ validFiles = files.filter validFilePred := by
  by_cases hlen : MAX_FILES < files.length
  · simp [processFiles, hlen] at h
  · refine ⟨by omega, ?_⟩
    by_cases hpos : 0 < (files.filter validFilePred).length
    · simp only [processFiles, if_neg hlen, if_pos hpos,
        Option.some.injEq] at h
      exact h.symm
    · simp [processFiles, hlen, hpos] at h

/-- C2: a batch of more than 50 files forwards nothing; otherwise every file
whose MIME type is outside the accepted list or whose size exceeds
`100 * 1024 * 1024` bytes is dropped, and `onFilesAdded` receives exactly the
surviving files, in their original order, exactly when at least one file
survives. -/
theorem c2_upload_cap (files : List File) :
    (MAX_FILES < files.length → processFiles files = none) ∧
    (files.length ≤ MAX_FILES →
      processFiles files =
        (if 0 < (files.filter validFilePred).length
         then some (files.filter validFilePred) else none) ∧
      ((processFiles files).isSome ↔ ∃ f ∈ files, validFilePred f = true)) ∧
    (∀ f : File, validFilePred f = true ↔
      (f.type ∈ ACCEPTED_IMAGE_TYPES ∧
        f.size ≤ MAX_FILE_SIZE_MB * 1024 * 1024)) := by
  refine ⟨?_, ?_, ?_⟩
  · intro h
    simp [processFiles, h]
  · intro h
    have hno : ¬MAX_FILES < files.length := by omega
    have heq : processFiles files =
        (if 0 < (files.filter validFilePred).length
         then some (files.filter validFilePred) else none) := by
      simp [processFiles, hno]
    refine ⟨heq, ?_⟩
    rw [heq]
    by_cases hpos : 0 < (files.filter validFilePred).length
    · rw [if_pos hpos]
      simp only [Option.isSome_some, true_iff]
      rcases List.length_pos_iff_exists_mem.mp hpos with ⟨f, hf⟩
      rcases List.mem_filter.mp hf with ⟨hmem, hvalid⟩
      exact ⟨f, hmem, hvalid⟩
    · rw [if_neg hpos]
      simp only [Option.isSome_none, Bool.false_eq_true, false_iff]
      rintro ⟨f, hmem, hvalid⟩
      exact hpos (List.length_pos_iff_exists_mem.mpr
        ⟨f, List.mem_filter.mpr ⟨hmem, hvalid⟩⟩)
  · intro f
    simp [validFilePred, Nat.not_lt]

/-- Witness for C2: a single accepted small file is forwarded unchanged, and
the valid-file predicate is characterised on it. -/
theorem c2_upload_cap_witness :
    processFiles [exFile] =
      (if 0 < ([exFile].filter validFilePred).length
       then some ([exFile].filter validFilePred) else none) ∧
    (validFilePred exFile = true ↔
      (exFile.type ∈ ACCEPTED_IMAGE_TYPES ∧
        exFile.size ≤ MAX_FILE_SIZE_MB * 1024 * 1024)) :=
  ⟨((c2_upload_cap [exFile]).2.1 (by decide)).1,
   (c2_upload_cap [exFile]).2.2 exFile⟩

/-! ## Claim C4 — a rejected file never reaches the results list -/

/-- C4: for every file of a batch that is rejected at upload time — the batch
is over the 50-file cap, its MIME type is outside the accepted list, it is
larger than 100 MiB, or its type fails the `image/` prefix filter of
`handleFilesAdded` — every record carrying that file in the resulting state
was already present before the upload: no new record for it is added. -/
theorem c4_rejected_not_in_results (newId newUrl : File → String)
    (files : List File) (prev : List ImageFile) (f : File)
    (hrej : MAX_FILES < files.length ∨ f.type ∉ ACCEPTED_IMAGE_TYPES ∨
      MAX_FILE_SIZE_MB * 1024 * 1024 < f.size ∨
      strStartsWith f.type "image/" = false)
    (r : ImageFile) (hr : r ∈ uploadFlow newId newUrl files prev)
    (hrf : r.file = f) : r ∈ prev := by
  unfold uploadFlow at hr
  cases hpf : processFiles files with
  | none =>
      rw [hpf] at hr
      exact hr
  | some validFiles =>
      rw [hpf] at hr
      rcases processFiles_eq_some hpf with ⟨hlen, hvalid⟩
      rcases List.mem_append.mp hr with hold | hnew
      · exact hold
      · exfalso
        rcases List.mem_map.mp hnew with ⟨f2, hf2, hrec⟩
        rcases List.mem_filter.mp hf2 with ⟨hf2v, hf2pre⟩
        rw [hvalid] at hf2v
        rcases List.mem_filter.mp hf2v with ⟨_, hf2valid⟩
        have hff : f2 = f := by rw [← hrec] at hrf; exact hrf
        subst hff
        simp [validFilePred] at hf2valid
        rcases hrej with h1 | h2 | h3 | h4
        · omega
        · exact h2 hf2valid.1
        · omega
        · rw [hf2pre] at h4
          simp at h4

/-- Witness for C4: an oversize PNG batch adds nothing; the record that
already carried that file stays, and it is the only place the file occurs. -/
theorem c4_rejected_not_in_results_witness : exBigRecord ∈ [exBigRecord] :=
  c4_rejected_not_in_results (fun _ => "id-7") (fun _ => "blob:7")
    [exBigFile] [exBigRecord] exBigFile
    (Or.inr (Or.inr (Or.inl (by decide)))) exBigRecord (by decide) rfl

/-! ## Claim C3 — per-file error handling, no retry -/

/-- C3: when the conversion of one image throws — whether the dimension probe
or the encoding step rejects — `processImage` sets that record's status to
`'error'` with the message stored in its `error` field, leaves every other
record (and the list's length and order) unchanged, and the record is not in
the `pending` set the processing effect re-attempts. -/
theorem c3_per_file_error (s : List ImageFile) (img : ImageFile)
    (msg : String) :
    ((processImage img (.dimsError msg) s).length = s.length ∧
     (∀ (i : Nat) (r : ImageFile), s[i]? = some r → r.id ≠ img.id →
        (processImage img (.dimsError msg) s)[i]? = some r) ∧
     (∀ (i : Nat) (r : ImageFile), s[i]? = some r → r.id = img.id →
        ∃ r2, (processImage img (.dimsError msg) s)[i]? = some r2 ∧
          r2.status = "error" ∧ r2.error = some msg ∧
          r2 ∉ pendingImages (processImage img (.dimsError msg) s))) ∧
    (∀ dims : Dimensions,
     (processImage img (.convertError dims msg) s).length = s.length ∧
     (∀ (i : Nat) (r : ImageFile), s[i]? = some r → r.id ≠ img.id →
        (processImage img (.convertError dims msg) s)[i]? = some r) ∧
     (∀ (i : Nat) (r : ImageFile), s[i]? = some r → r.id = img.id →
        ∃ r2, (processImage img (.convertError dims msg) s)[i]? = some r2 ∧
          r2.status = "error" ∧ r2.error = some msg ∧
          r2 ∉ pendingImages (processImage img (.convertError dims msg) s))) := by
  constructor
  · refine ⟨?_, ?_, ?_⟩
    · simp [processImage, setFailed, setConverting, updateImageState]
    · intro i r h hne
      exact updateImageState_getElem?_ne
        (updateImageState_getElem?_ne h hne) hne
    · intro i r h heq
      have h1 := updateImageState_getElem?_eq
        (u := { status := some "converting" }) h heq
      have hid1 : (applyUpdate r { status := some "converting" }).id =
          img.id := heq
      have h2 := updateImageState_getElem?_eq
        (u := { status := some "error", error := some (some msg) }) h1 hid1
      refine ⟨_, h2, rfl, rfl, ?_⟩
      intro hmem
      have := (List.mem_filter.mp hmem).2
      simp [applyUpdate] at this
  · intro dims
    refine ⟨?_, ?_, ?_⟩
    · simp [processImage, setFailed, setDimensions, setConverting,
        updateImageState]
    · intro i r h hne
      exact updateImageState_getElem?_ne
        (updateImageState_getElem?_ne (updateImageState_getElem?_ne h hne)
          hne) hne
    · intro i r h heq
      have h1 := updateImageState_getElem?_eq
        (u := { status := some "converting" }) h heq
      have hid1 : (applyUpdate r { status := some "converting" }).id =
          img.id := heq
      have h2 := updateImageState_getElem?_eq
        (u := { dimensions := some (some dims) }) h1 hid1
      have hid2 : (applyUpdate (applyUpdate r { status := some "converting" })
          { dimensions := some (some dims) }).id = img.id := heq
      have h3 := updateImageState_getElem?_eq
        (u := { status := some "error", error := some (some msg) }) h2 hid2
      refine ⟨_, h3, rfl, rfl, ?_⟩
      intro hmem
      have := (List.mem_filter.mp hmem).2
      simp [applyUpdate] at this

/-- Witness for C3: a failing dimension probe on a concrete one-record list
marks that record `error` and stores the message. -/
theorem c3_per_file_error_witness :
    ∃ r2, (processImage exPending (.dimsError "probe failed")
        [exPending])[0]? = some r2 ∧
      r2.status = "error" ∧ r2.error = some "probe failed" ∧
      r2 ∉ pendingImages (processImage exPending (.dimsError "probe failed")
        [exPending]) :=
  ((c3_per_file_error [exPending] exPending "probe failed").1).2.2 0
    exPending rfl rfl

/-! ## Claim C5 — the per-image pipeline runs its steps in order -/

/-- C5: on the success path, `processImage` first marks the record
`'converting'` (conversion results untouched), then stores the probed
dimensions (status still `'converting'`, conversion results still
untouched), and only then records the converted URL and size together with
status `'done'`. -/
theorem c5_pipeline_order (s : List ImageFile) (img : ImageFile)
    (dims : Dimensions) (url : String) (size : Nat) (i : Nat)
    (r : ImageFile) (h : s[i]? = some r) (hid : r.id = img.id) :
    processImageTrace img (.ok dims url size) s =
      [setConverting img.id s,
       setDimensions img.id dims (setConverting img.id s),
       setDone img.id url size
         (setDimensions img.id dims (setConverting img.id s))] ∧
    ((setConverting img.id s)[i]?.map ImageFile.status =
        some "converting" ∧
     (setConverting img.id s)[i]?.map ImageFile.dimensions =
        some r.dimensions ∧
     (setConverting img.id s)[i]?.map ImageFile.convertedUrl =
        some r.convertedUrl ∧
     (setConverting img.id s)[i]?.map ImageFile.convertedSize =
        some r.convertedSize) ∧
    ((setDimensions img.id dims (setConverting img.id s))[i]?.map
        ImageFile.status = some "converting" ∧
     (setDimensions img.id dims (setConverting img.id s))[i]?.map
        ImageFile.dimensions = some (some dims) ∧
     (setDimensions img.id dims (setConverting img.id s))[i]?.map
        ImageFile.convertedUrl = some r.convertedUrl ∧
     (setDimensions img.id dims (setConverting img.id s))[i]?.map
        ImageFile.convertedSize = some r.convertedSize) ∧
    ((setDone img.id url size
        (setDimensions img.id dims (setConverting img.id s)))[i]?.map
        ImageFile.status = some "done" ∧
     (setDone img.id url size
        (setDimensions img.id dims (setConverting img.id s)))[i]?.map
        ImageFile.convertedUrl = some (some url) ∧
     (setDone img.id url size
        (setDimensions img.id dims (setConverting img.id s)))[i]?.map
        ImageFile.convertedSize = some (some size) ∧
     (setDone img.id url size
        (setDimensions img.id dims (setConverting img.id s)))[i]?.map
        ImageFile.dimensions = some (some dims)) := by
  have h1 := updateImageState_getElem?_eq
    (u := { status := some "converting" }) h hid
  have hid1 : (applyUpdate r { status := some "converting" }).id =
      img.id := hid
  have h2 := updateImageState_getElem?_eq
    (u := { dimensions := some (some dims) }) h1 hid1
  have hid2 : (applyUpdate (applyUpdate r { status := some "converting" })
      { dimensions := some (some dims) }).id = img.id := hid
  have h3 := updateImageState_getElem?_eq
    (u := { convertedUrl := some (some url)
            convertedSize := some (some size)
            status := some "done" }) h2 hid2
  refine ⟨rfl, ?_, ?_, ?_⟩
  · rw [setConverting, h1]
    exact ⟨rfl, rfl, rfl, rfl⟩
  · rw [setDimensions, setConverting, h2]
    exact ⟨rfl, rfl, rfl, rfl⟩
  · rw [setDone, setDimensions, setConverting, h3]
    exact ⟨rfl, rfl, rfl, rfl⟩

/-- Witness for C5: the three pipeline stages observed on a concrete
one-record list. -/
theorem c5_pipeline_order_witness :
    (setConverting exPending.id [exPending])[0]?.map ImageFile.status =
      some "converting" ∧
    (setDimensions exPending.id exDims
      (setConverting exPending.id [exPending]))[0]?.map
      ImageFile.dimensions = some (some exDims) ∧
    (setDone exPending.id "blob:conv-1" 512
      (setDimensions exPending.id exDims
        (setConverting exPending.id [exPending])))[0]?.map
      ImageFile.status = some "done" := by
  have h := c5_pipeline_order [exPending] exPending exDims "blob:conv-1" 512
    0 exPending rfl rfl
  exact ⟨h.2.1.1, h.2.2.1.2.1, h.2.2.2.1⟩

/-! ## Claim C1 — the status chain -/

/-- C1 counterexample: the claim states that no operation moves a record from
`'done'` or `'error'` to any other status, but `handleRecompressAll` — one of
the operations the claim itself covers — resets a concrete `'done'` record to
`'pending'`. -/
theorem c1_counterexample :
    exDone.status = "done" ∧
    (handleRecompressAll [exDone])[0]?.map ImageFile.status =
      some "pending" ∧
    ("pending" : String) ≠ "done" := by
  refine ⟨rfl, ?_, by decide⟩
  decide

/-- C1 as amended: `processImage` moves a record from `'pending'` to
`'converting'` and then to exactly one of `'done'` or `'error'` (depending on
the outcome), and the only operation that moves a record out of `'done'` or
`'error'` is `handleRecompressAll`, which resets it to `'pending'`. -/
theorem c1_amended_status_chain :
    (∀ (s : List ImageFile) (img : ImageFile) (dims : Dimensions)
        (url : String) (size : Nat) (msg : String) (i : Nat) (r : ImageFile),
        s[i]? = some r → r.id = img.id → r.status = "pending" →
        ((processImageTrace img (.ok dims url size) s).map
            (fun t => t[i]?.map ImageFile.status) =
          [some "converting", some "converting", some "done"] ∧
         (processImageTrace img (.dimsError msg) s).map
            (fun t => t[i]?.map ImageFile.status) =
          [some "converting", some "error"] ∧
         (processImageTrace img (.convertError dims msg) s).map
            (fun t => t[i]?.map ImageFile.status) =
          [some "converting", some "converting", some "error"])) ∧
    (∀ s t : List ImageFile, AppStep s t → IdsIdentify s →
      ∀ (i : Nat) (r : ImageFile), s[i]? = some r →
        (r.status = "done" ∨ r.status = "error") →
        t[i]? = some r ∨
          (t = handleRecompressAll s ∧
           t[i]?.map ImageFile.status = some "pending")) := by
  constructor
  · intro s img dims url size msg i r h hid hpend
    have h1 := updateImageState_getElem?_eq
      (u := { status := some "converting" }) h hid
    have hid1 : (applyUpdate r { status := some "converting" }).id =
        img.id := hid
    have h2 := updateImageState_getElem?_eq
      (u := { dimensions := some (some dims) }) h1 hid1
    have hid2 : (applyUpdate (applyUpdate r { status := some "converting" })
        { dimensions := some (some dims) }).id = img.id := hid
    have h3 := updateImageState_getElem?_eq
      (u := { convertedUrl := some (some url)
              convertedSize := some (some size)
              status := some "done" }) h2 hid2
    have h4 := updateImageState_getElem?_eq
      (u := { status := some "error", error := some (some msg) }) h1 hid1
    have h5 := updateImageState_getElem?_eq
      (u := { status := some "error", error := some (some msg) }) h2 hid2
    refine ⟨?_, ?_, ?_⟩
    · simp only [processImageTrace, List.map_cons, List.map_nil]
      rw [setDone, setDimensions, setConverting, h1, h2, h3]
      rfl
    · simp only [processImageTrace, List.map_cons, List.map_nil]
      rw [setFailed, setConverting, h1, h4]
      rfl
    · simp only [processImageTrace, List.map_cons, List.map_nil]
      rw [setFailed, setDimensions, setConverting, h1, h2, h5]
      rfl
  · intro s t hstep hids i r h hdone
    cases hstep with
    | upload newId newUrl files =>
        left
        unfold uploadFlow
        cases processFiles files with
        | none => exact h
        | some validFiles =>
            unfold handleFilesAdded
            rcases List.getElem?_eq_some.mp h with ⟨hlt, _⟩
            rw [List.getElem?_append_left hlt]
            exact h
    | process img outcome hmem hp ht =>
        left
        have hrs : r ∈ s := mem_of_getElem?_some h
        have hne : r.id ≠ img.id := by
          intro hcontra
          have := hids r hrs img hmem hcontra
          rw [this] at hdone
          rcases hdone with h1 | h1 <;> rw [hp] at h1 <;> exact
            absurd h1 (by decide)
        exact processImageTrace_getElem?_ne ht h hne
    | recompress =>
        right
        refine ⟨rfl, ?_⟩
        rw [handleRecompressAll_getElem?, h]
        rcases hdone with h1 | h1 <;> simp [h1]

/-- Witness for C1 (amended): the full `pending → converting → done` trace on
a concrete record, and `handleRecompressAll` as the operation that legally
resets a concrete `'done'` record. -/
theorem c1_amended_status_chain_witness :
    (processImageTrace exPending
        (.ok exDims "blob:conv-1" 512) [exPending]).map
      (fun t => t[0]?.map ImageFile.status) =
      [some "converting", some "converting", some "done"] ∧
    ((handleRecompressAll [exDone])[0]? = some exDone ∨
      (handleRecompressAll [exDone] = handleRecompressAll [exDone] ∧
       (handleRecompressAll [exDone])[0]?.map ImageFile.status =
         some "pending")) := by
  constructor
  · exact (c1_amended_status_chain.1 [exPending] exPending exDims
      "blob:conv-1" 512 "unused" 0 exPending rfl rfl rfl).1
  · exact c1_amended_status_chain.2 [exDone] (handleRecompressAll [exDone])
      AppStep.recompress
      (by
        intro r1 h1 r2 h2 _
        rw [List.mem_singleton] at h1 h2
        rw [h1, h2])
      0 exDone rfl (Or.inl rfl)

/-! ## Claim C8 — the status enum is closed -/

/-- C8: in every reachable state, every record's status is one of
`'pending'`, `'converting'`, `'done'`, `'error'`; no operation assigns a
value outside this set. -/
theorem c8_status_enum (s : List ImageFile) (h : Reachable s) :
    ∀ img ∈ s, img.status ∈
      (["pending", "converting", "done", "error"] : List String) := by
  have hlegal : statusLegal s := by
    unfold Reachable at h
    induction h with
    | refl => intro img hmem; exact absurd hmem (List.not_mem_nil img)
    | tail hsteps hstep ih => exact statusLegal_appStep hstep ih
  exact hlegal

/-- Witness for C8: the state reached by one upload step carries only legal
statuses; the fresh record is `'pending'`. -/
theorem c8_status_enum_witness :
    exRecord1.status ∈
      (["pending", "converting", "done", "error"] : List String) :=
  c8_status_enum exState1
    (Relation.ReflTransGen.single
      (AppStep.upload (fun _ => "id-1") (fun _ => "blob:orig-1") [exFile]))
    exRecord1 (by decide)

/-! ## Claim C6 — size and compression statistics -/

/-- C6 counterexample: at `bytes = 1024 ^ 5` the exponent is `5`, which falls
outside the `['Bytes', 'KB', 'MB', 'GB', 'TB']` table, so the rendered unit
is not one of the five units the claim allows (JavaScript renders
`undefined`). -/
theorem c6_counterexample :
    0 < 1024 ^ 5 ∧ byteExponent (1024 ^ 5) = 5 ∧
    formatBytesUnit (1024 ^ 5) = none := by
  have hlog : byteExponent (1024 ^ 5) = 5 := Nat.log_pow (by norm_num) 5
  refine ⟨by norm_num, hlog, ?_⟩
  rw [formatBytesUnit, hlog]
  rfl

/-- C6 as amended: for records with positive original and converted sizes the
badge shows `((originalSize - convertedSize) / originalSize) * 100` rounded
to one decimal place, prefixed `-` when the converted size is smaller and `+`
otherwise; `formatBytes` renders `0` as `'0 Bytes'`, and for positive
`b < 1024 ^ 5` it renders `b / 1024 ^ (Nat.log 1024 b)` rounded to two
decimals with the unit selected from Bytes/KB/MB/GB/TB by that exponent
(beyond `1024 ^ 5` the exponent leaves the unit table). -/
theorem c6_amended_stats :
    (∀ originalSize convertedSize : Nat,
      0 < originalSize → 0 < convertedSize →
      compressionBadge originalSize (some convertedSize) =
        (if convertedSize < originalSize then "-" else "+",
         |round1 ((((originalSize : ℚ) - (convertedSize : ℚ)) /
            (originalSize : ℚ)) * 100)|)) ∧
    formatBytes 0 = Sum.inl "0 Bytes" ∧
    (∀ bytes : Nat, 0 < bytes → bytes < 1024 ^ 5 →
      byteExponent bytes ≤ 4 ∧
      formatBytes bytes =
        Sum.inr (round2 ((bytes : ℚ) / (1024 : ℚ) ^ Nat.log 1024 bytes),
          sizeUnits.get? (Nat.log 1024 bytes)) ∧
      (sizeUnits.get? (Nat.log 1024 bytes)).isSome = true) := by
  refine ⟨?_, rfl, ?_⟩
  · intro o c ho hc
    simp [compressionBadge, isOptimizedSmaller, compressionPercentage,
      ho.ne', hc.ne']
  · intro bytes hbpos hb5
    have hexp : byteExponent bytes < 5 :=
      Nat.log_lt_of_lt_pow (by omega) hb5
    refine ⟨by omega, ?_, ?_⟩
    · simp [formatBytes, formatBytesValue, formatBytesUnit, byteExponent,
        hbpos.ne']
    · have hlt : Nat.log 1024 bytes < sizeUnits.length := by
        simpa [sizeUnits, byteExponent] using hexp
      rw [List.get?_eq_getElem?, List.getElem?_eq_getElem hlt]
      rfl

/-- Witness for C6 (amended): a 2048-byte original compressed to 512 bytes
shows `-75` percent, and 2048 bytes format as `2 KB`. -/
theorem c6_amended_stats_witness :
    compressionBadge 2048 (some 512) =
      (if 512 < 2048 then "-" else "+",
       |round1 ((((2048 : ℚ) - (512 : ℚ)) / (2048 : ℚ)) * 100)|) ∧
    (byteExponent 2048 ≤ 4 ∧
     formatBytes 2048 =
       Sum.inr (round2 ((2048 : ℚ) / (1024 : ℚ) ^ Nat.log 1024 2048),
         sizeUnits.get? (Nat.log 1024 2048)) ∧
     (sizeUnits.get? (Nat.log 1024 2048)).isSome = true) :=
  ⟨c6_amended_stats.1 2048 512 (by norm_num) (by norm_num),
   c6_amended_stats.2.2 2048 (by norm_num) (by norm_num)⟩

/-! ## Claim C7 — the ZIP batch download -/

/-- C7: `downloadAllAsZip` builds no archive exactly when no record is
`'done'` with a converted URL; otherwise the archive holds exactly one entry
per such record, in order, named by the code's base-name computation plus
`_optimized.webp`, storing that record's converted blob; and the batch
download is offered exactly when more than one image is `'done'` and every
image in the list is `'done'`. -/
theorem c7_zip_batch (images : List ImageFile) :
    (downloadAllAsZip images = none ↔
      ∀ img ∈ images,
        ¬(img.status = "done" ∧ img.convertedUrl.isSome = true)) ∧
    (∀ entries, downloadAllAsZip images = some entries →
      entries = (doneImages images).map fun img =>
        (optimizedName img.file.name, img.convertedUrl)) ∧
    (canDownloadAll images = true ↔
      (1 < convertedCount images ∧ ∀ img ∈ images, img.status = "done")) := by
  refine ⟨?_, ?_, ?_⟩
  · constructor
    · intro h img hmem
      by_cases hlen : (doneImages images).length = 0
      · have hnil : doneImages images = [] := List.length_eq_zero.mp hlen
        rw [doneImages] at hnil
        have := List.filter_eq_nil_iff.mp hnil img hmem
        simpa using this
      · simp only [downloadAllAsZip, if_neg hlen] at h
        exact absurd h (by simp)
    · intro hall
      have hnil : doneImages images = [] := by
        rw [doneImages]
        refine List.filter_eq_nil_iff.mpr ?_
        intro a ha
        have := hall a ha
        simpa using this
      simp [downloadAllAsZip, hnil]
  · intro entries h
    by_cases hlen : (doneImages images).length = 0
    · simp only [downloadAllAsZip, if_pos hlen] at h
      exact absurd h (by simp)
    · simp only [downloadAllAsZip, if_neg hlen, Option.some.injEq] at h
      exact h.symm
  · have hiff : canDownloadAll images = true ↔
        (1 < convertedCount images ∧ progress images = 100) := by
      simp [canDownloadAll]
    rw [hiff]
    constructor
    · rintro ⟨hc, hp⟩
      refine ⟨hc, ?_⟩
      by_cases hlen0 : 0 < images.length
      · rw [progress, if_pos hlen0] at hp
        have hn' : ((images.length : ℚ)) ≠ 0 := by positivity
        have hceq : convertedCount images = images.length := by
          field_simp at hp
          have : ((convertedCount images : ℚ)) = (images.length : ℚ) := by
            linarith
          exact_mod_cast this
        intro img hmem
        have := List.filter_length_eq_length.mp hceq img hmem
        simpa using this
      · rw [progress, if_neg hlen0] at hp
        norm_num at hp
    · rintro ⟨hc, hall⟩
      refine ⟨hc, ?_⟩
      have hlenpos : 0 < images.length := by
        have hle := List.length_filter_le
          (fun img => decide (img.status = "done")) images
        rw [convertedCount] at hc
        omega
      rw [progress, if_pos hlenpos]
      have heq : convertedCount images = images.length := by
        rw [convertedCount]
        refine List.filter_length_eq_length.mpr ?_
        intro a ha
        simp [hall a ha]
      rw [heq]
      have hn' : ((images.length : ℚ)) ≠ 0 := by positivity
      field_simp

/-- Witness for C7: the empty list builds no archive, and a two-record list
whose records are both `'done'` offers the batch download. -/
theorem c7_zip_batch_witness :
    downloadAllAsZip [] = none ∧
    canDownloadAll [exDone, exDone2] = true := by
  constructor
  · exact (c7_zip_batch []).1.mpr (by intro img hmem; cases hmem)
  · exact (c7_zip_batch [exDone, exDone2]).2.2.mpr ⟨by decide, by decide⟩

end Webp
